import Mathlib

/-!
Verification development for `gfspy.py`, the single source file of this
repository.

Modelling conventions:
* Python `datetime` values are integers counting microseconds since an
  arbitrary epoch; `timedelta` values are microsecond counts.  The attribute
  accessors (`.hour`, `.minute`, ...) are derived with Euclidean division,
  which agrees with Python's floored `//` and `%` for the positive divisors
  used here.
* Python floats are modelled as rationals; `int()` truncates toward zero
  (`Int.tdiv`), `round()` rounds half to even.
* Fallible code returns `Except PyErr`, with one `PyErr` constructor per
  raise site (or built-in exception class) of the source, carrying the datum
  that the corresponding message interpolates.
* Python `str.split()` is modelled on single spaces, which is exact for the
  single-line protocol texts processed here; `str` values are manipulated
  through their character lists.
-/

namespace Gfspy

/-- Exception classes raised at specific sites of `gfspy.py`.  `typeError`,
`indexError`, `keyError` and `nameError` model the built-in exceptions Python
raises for, respectively, `float()` on a non-string non-number, indexing an
empty sequence, a missing dict key, and referencing an unassigned local;
the remaining constructors model the explicit `raise ValueError` sites. -/
inductive PyErr where
  | typeError : PyErr
  | indexError : PyErr
  | keyError : PyErr
  | nameError (var : String) : PyErr
  | rangeError (maxHours : ℤ) : PyErr
  | unknownVariable (name : String) : PyErr
  | levelRequired (name : String) : PyErr
  | coordFormatError (axis : String) : PyErr
  | notOnGrid : PyErr
  deriving DecidableEq

/-- A Python value as far as the latitude/longitude dispatch of
`Forcast.get` can distinguish one: a `str`, an `int`/`float`, or anything
else. -/
inductive PyVal where
  | pystr (s : String) : PyVal
  | pynum (q : ℚ) : PyVal
  | pyother : PyVal
  deriving DecidableEq

deriving instance DecidableEq for Except

/-- Microseconds in one second. -/
def usPerSec : ℤ := 1000000

/-- Microseconds in one minute. -/
def usPerMin : ℤ := 60000000

/-- Microseconds in one hour. -/
def usPerHour : ℤ := 3600000000

/-- Microseconds in one day. -/
def usPerDay : ℤ := 86400000000

/-- `t.microsecond` of a Python `datetime`. -/
def micro (t : ℤ) : ℤ := t % usPerSec

/-- `t.second` of a Python `datetime`. -/
def second (t : ℤ) : ℤ := (t / usPerSec) % 60

/-- `t.minute` of a Python `datetime`. -/
def minute (t : ℤ) : ℤ := (t / usPerMin) % 60

/-- `t.hour` of a Python `datetime`. -/
def hour (t : ℤ) : ℤ := (t / usPerHour) % 24

/-- `t.replace(second=0, microsecond=0, minute=0, hour=t.hour)`: zero the
sub-hour components of a datetime. -/
def floorHour (t : ℤ) : ℤ := t - micro t - second t * usPerSec - minute t * usPerMin

/-- `hour_round` (gfspy.py lines 358-361): floor to the hour, then add one
hour when the original minute component is at least 30. -/
def hour_round (t : ℤ) : ℤ := floorHour t + minute t / 30 * usPerHour

/-- Python `int()` applied to a float (here: a rational): truncation toward
zero. -/
def pyInt (q : ℚ) : ℤ := Int.tdiv q.num (q.den : ℤ)

/-- Python `round()` on a float (here: a rational): round half to even. -/
def pyRound (q : ℚ) : ℤ :=
  if q - ⌊q⌋ < 1/2 then ⌊q⌋
  else if (1 : ℚ)/2 < q - ⌊q⌋ then ⌊q⌋ + 1
  else if ⌊q⌋ % 2 = 0 then ⌊q⌋ else ⌊q⌋ + 1

/-- `timedelta.seconds`: the seconds component of a normalised `timedelta`,
i.e. the total microsecond count floor-divided into whole seconds and then
reduced modulo one day.  This is NOT the total duration in seconds. -/
def secondsAttr (d : ℤ) : ℤ := (d / usPerSec) % 86400

/-- `earliest_available` (gfspy.py line 68): `hour_round(utcnow() - 7 days)`. -/
def earliestAvailable (now : ℤ) : ℤ := hour_round (now - 7 * usPerDay)

/-- `latest_available` (gfspy.py lines 69-79): `hour_round` of `utcnow()`
minus a `timedelta` whose hour count is
`now.hour - 6*(now.hour//6) - grads_size*int(grads_step[0])` and whose
minute/second/microsecond counts are those of `utcnow()`.
`c` is `int(times["grads_size"])` and `s` is `int(times["grads_step"][0])`. -/
def latestAvailable (now c s : ℤ) : ℤ :=
  hour_round (now -
    ((hour now - 6 * (hour now / 6) - c * s) * usPerHour
      + minute now * usPerMin + second now * usPerSec + micro now))

/-- `latest_forcast` (gfspy.py lines 81-83). -/
def latestForcast (now c s : ℤ) : ℤ := latestAvailable now c s - c * s * usPerHour

/-- The `while desired_date < query_forcast: query_forcast -= timedelta(hours=6)`
loop of gfspy.py lines 86-87. -/
def whileStep (desired q : ℤ) : ℤ :=
  if h : desired < q then whileStep desired (q - 6 * usPerHour) else q
termination_by (q - desired).toNat
decreasing_by
  simp_wf
  simp only [usPerHour]
  omega

/-- The time index computed at gfspy.py lines 92-97:
`round((desired_date - query_forcast).seconds / (int(grads_step[0])*60*60))`.
Note the use of the `.seconds` component, not the total duration. -/
def timeIndex (desired q s : ℤ) : ℤ :=
  pyRound ((secondsAttr (desired - q) : ℚ) / ((s * 60 * 60 : ℤ) : ℚ))

/-- The temporal-resolution step of `Forcast.get` (gfspy.py lines 67-106):
window check, run selection, and time-index computation.  Returns the
selected run (as a datetime) and the time index, or the `ValueError` of
lines 100-106 whose message reports `grads_size * int(grads_step[0])` hours. -/
def getForecastTime (now desired c s : ℤ) : Except PyErr (ℤ × ℤ) :=
  if earliestAvailable now < desired ∧ desired < latestAvailable now c s then
    .ok (whileStep desired (latestForcast now c s),
         timeIndex desired (whileStep desired (latestForcast now c s)) s)
  else .error (.rangeError (c * s))

/-- Modelled from the spec (refinement comparison for the availability
window): `latest_available = floor_to_hour(now) - ((now.hour mod 6) hours)
- (run_count * run_step_hours) hours`, with `floor_to_hour` rounding the
hour up when minutes >= 30 (i.e. `hour_round`). -/
def specLatestAvailable (now c s : ℤ) : ℤ :=
  hour_round now - hour now % 6 * usPerHour - c * s * usPerHour

/-- Modelled from the spec (refinement comparison for the time index):
`time_index = round((requested - selected_run) / run_step_hours_as_duration)`,
using the total duration, not a seconds component. -/
def specTimeIndex (desired selected s : ℤ) : ℤ :=
  pyRound (((desired - selected : ℤ) : ℚ) / ((s : ℚ) * (usPerHour : ℤ)))

/-- Per-axis metadata as parsed by `get_attributes` and consumed by
`Forcast.value_to_index` / `Forcast.get`: `minimum`, `maximum`,
`resolution` (floats) and `grads_size` (an integer). -/
structure AxisMeta where
  minimum : ℚ
  maximum : ℚ
  resolution : ℚ
  grads_size : ℕ
  deriving DecidableEq

/-- The `possibles` list of `Forcast.value_to_index` (gfspy.py lines
194-198): `[resolution * n + minimum for n in range(grads_size)]`. -/
def lattice (m : AxisMeta) : List ℚ :=
  (List.range m.grads_size).map (fun n : ℕ => m.resolution * (n : ℚ) + m.minimum)

/-- Python `list.index`: the position of the first exact match, or `none`
(Python: `ValueError`) when the value is absent. -/
def firstMatch : List ℚ → ℚ → Option ℕ
  | [], _ => none
  | x :: xs, v => if x = v then some 0 else (firstMatch xs v).map (· + 1)

/-- `Forcast.value_to_index` (gfspy.py lines 193-199). -/
def value_to_index (m : AxisMeta) (v : ℚ) : Except PyErr ℕ :=
  match firstMatch (lattice m) v with
  | some i => .ok i
  | none => .error .notOnGrid

/-- Python `str.isnumeric()` restricted to ASCII text: nonempty and all
digits (so `"4.5"` and `"-5"` are not numeric). -/
def pyIsNumericL (cs : List Char) : Bool := !cs.isEmpty && cs.all Char.isDigit

/-- Value of a digit string, as `float()` would produce for the strings
accepted by `pyIsNumericL`. -/
def digitsVal (cs : List Char) : ℚ :=
  ((cs.foldl (fun n ch => 10 * n + (ch.toNat - 48)) 0 : ℕ) : ℚ)

/-- The latitude (gfspy.py lines 108-129) / longitude (lines 131-152)
dispatch of `Forcast.get`; both blocks are textually identical up to the
axis name.  For a string shaped `"[...:...]"` the source computes
`float(re.findall(r"\[(.*?):", lat))`: `re.findall` returns a *list*, and
`float` of a list raises `TypeError`, before any conversion can happen.
A numeric string is converted through `value_to_index`; any other string
raises the `ValueError` of lines 119-122; a bare number passes through
unchanged; any other value raises the `ValueError` of lines 126-129.
An empty string raises `IndexError` at `lat[0]`. -/
def parseCoordExpr (m : AxisMeta) (axis : String) (v : PyVal) : Except PyErr PyVal :=
  match v with
  | .pystr s =>
    match s.data with
    | [] => .error .indexError
    | c :: cs =>
      if c == '[' && (c :: cs).getLastD ' ' == ']' && (c :: cs).contains ':' then
        .error .typeError
      else if pyIsNumericL (c :: cs) then
        match value_to_index m (digitsVal (c :: cs)) with
        | .ok i => .ok (.pystr ("[" ++ toString i ++ "]"))
        | .error e => .error e
      else .error (.coordFormatError axis)
  | .pynum q => .ok (.pynum q)
  | .pyother => .error (.coordFormatError axis)

/-- The dict access `self.variables[variable]["level_dependent"]`
(gfspy.py line 180): raises `KeyError` when the attribute was never set. -/
def pyGetLevelDependent (m : Option Bool) : Except PyErr Bool :=
  match m with
  | some b => .ok b
  | none => .error .keyError

/-- First-match association-list lookup, modelling a Python dict with
`String` keys (keys are unique in the dicts built by `get_attributes`). -/
def alookup {α : Type} : List (String × α) → String → Option α
  | [], _ => none
  | p :: rest, k => if p.1 = k then some p.2 else alookup rest k

/-- The query-assembly loop of `Forcast.get` (gfspy.py lines 171-189).
Each variable appends `"," + variable + query_time (+ lev) + lat + lon` to
the accumulator; an unknown variable raises the `ValueError` of lines
175-179.  When a variable is level-dependent the condition of line 180
evaluates the local `lev`, which is only assigned when `alt != []`
(line 158); with `lev` unassigned this raises `UnboundLocalError`
(modelled as `nameError "lev"`), so the `ValueError` of lines 181-185
(`levelRequired`) is unreachable on that path. -/
def buildQueryAux (catalog : List (String × Option Bool)) (qt lat lon : String)
    (lev : Option String) : List String → String → Except PyErr String
  | [], acc => .ok acc
  | v :: rest, acc =>
    match alookup catalog v with
    | none => .error (.unknownVariable v)
    | some meta =>
      match pyGetLevelDependent meta with
      | .error e => .error e
      | .ok ld =>
        if ld then
          match lev with
          | none => .error (.nameError "lev")
          | some lv =>
            buildQueryAux catalog qt lat lon lev rest
              (acc ++ "," ++ v ++ qt ++ lv ++ lat ++ lon)
        else
          buildQueryAux catalog qt lat lon lev rest
            (acc ++ "," ++ v ++ qt ++ lat ++ lon)

/-- The query string built by gfspy.py lines 171-189, starting from the
empty string of line 172. -/
def buildQuery (catalog : List (String × Option Bool)) (vars : List String)
    (qt lat lon : String) (lev : Option String) : Except PyErr String :=
  buildQueryAux catalog qt lat lon lev vars ""

/-- The token the code appends for one variable (leading comma included),
with the level range inserted exactly for level-dependent variables. -/
def queryTokenSpec (catalog : List (String × Option Bool)) (qt lv lat lon v : String) :
    String :=
  "," ++ v ++ qt ++ (if alookup catalog v = some (some true) then lv else "") ++ lat ++ lon

/-- Concatenation of a list of strings, in order. -/
def concatAll : List String → String
  | [] => ""
  | a :: l => a ++ concatAll l

/-- Modelled from the spec (refinement comparison for C4): the tokens
joined by commas, i.e. `",".join(tokens)` with no leading comma. -/
def specJoinedQuery (tokens : List String) : String := String.intercalate "," tokens

/-- The upper level index `int((lev.minimum - lev.maximum)/lev.resolution)`
computed at gfspy.py lines 158-161 and 212-215. -/
def max_lev (m : AxisMeta) : ℤ := pyInt ((m.minimum - m.maximum) / m.resolution)

/-- The level range string `"[0:%s]" % int(...)` of gfspy.py line 158. -/
def levRangeString (m : AxisMeta) : String := "[0:" ++ toString (max_lev m) ++ "]"

/-- Split a character list at every occurrence of `sep`; the separator is
consumed.  `splitChar sep cs` always returns at least one (possibly empty)
group. -/
def splitChar (sep : Char) : List Char → List (List Char)
  | [] => [[]]
  | c :: cs =>
    let r := splitChar sep cs
    if c = sep then [] :: r
    else
      match r with
      | [] => [[c]]
      | g :: gs => (c :: g) :: gs

/-- The captures of `re.findall(r"(.*?)\[", array)` (gfspy.py lines 322 and
325): the text before each `[`, i.e. all groups of a `[`-split except the
last (text after the final `[` is followed by no `[` and is not captured). -/
def declSegs (decl : String) : List (List Char) := (splitChar '[' decl.data).dropLast

/-- Python `str.split()` (no argument) on single-space text: split on
spaces and drop empty groups. -/
def pyWords (cs : List Char) : List (List Char) :=
  (splitChar ' ' cs).filter (fun w => !w.isEmpty)

/-- The axis name `"lev"` as a character list. -/
def levWord : List Char := ['l', 'e', 'v']

/-- `variables[var]["level_dependent"] = lev_dep` (gfspy.py line 328):
update the entry of `name`, leaving other entries alone. -/
def varsSet (vars : List (String × Option Bool)) (name : String) (b : Bool) :
    List (String × Option Bool) :=
  vars.map (fun p => if p.1 = name then (p.1, some b) else p)

/-- The `for dim in re.findall(...): if dim.split()[0] == "lev"` loop of
gfspy.py lines 325-327; `dim.split()[0]` on a segment with no words raises
`IndexError`. -/
def levScanAux : Bool → List (List Char) → Except PyErr Bool
  | acc, [] => .ok acc
  | acc, seg :: rest =>
    match pyWords seg with
    | [] => .error .indexError
    | w :: _ => levScanAux (acc || (w == levWord)) rest

/-- Processing of one `ARRAY:` declaration line (gfspy.py lines 321-328):
parse the variable name as `re.findall(r"(.*?)\[", array)[0].split()[1]`
(raising `IndexError` when either index is out of range), and if the name
is a known variable, scan the dimension segments for `lev` and record the
result under `level_dependent`. -/
def processDecl (vars : List (String × Option Bool)) (decl : String) :
    Except PyErr (List (String × Option Bool)) :=
  match declSegs decl with
  | [] => .error .indexError
  | s0 :: rest =>
    match (pyWords s0)[1]? with
    | none => .error .indexError
    | some nameCs =>
      if (alookup vars (String.mk nameCs)).isSome then
        match levScanAux false (s0 :: rest) with
        | .error e => .error e
        | .ok b => .ok (varsSet vars (String.mk nameCs) b)
      else .ok vars

/-- The whole array-declaration loop of `get_attributes` (gfspy.py lines
320-328), over the list of declaration lines captured by
`re.findall(r"ARRAY:\n(.*?)\n", r.text)`. -/
def processArrays : List (String × Option Bool) → List String →
    Except PyErr (List (String × Option Bool))
  | vars, [] => .ok vars
  | vars, d :: ds =>
    match processDecl vars d with
    | .error e => .error e
    | .ok vs => processArrays vs ds

/-- The variable name parsed from a declaration line (total version used in
statements; agrees with `processDecl` on well-formed declarations). -/
def parsedName (decl : String) : String :=
  String.mk (((pyWords ((declSegs decl).headD []))[1]?).getD [])

/-- Whether a declaration's dimension list includes a `lev` axis, as the
code detects it: some pre-`[` segment has first word `lev`. -/
def declHasLev (decl : String) : Bool :=
  (declSegs decl).any (fun seg => (pyWords seg).headD [] == levWord)

/-- Well-formedness of a declaration line: at least one `[`, at least two
words before the first `[`, and every pre-`[` segment nonblank, so that no
`IndexError` is raised while processing it. -/
def wfDecl (decl : String) : Prop :=
  declSegs decl ≠ [] ∧ 2 ≤ (pyWords ((declSegs decl).headD [])).length ∧
    ∀ seg ∈ declSegs decl, pyWords seg ≠ []

instance (decl : String) : Decidable (wfDecl decl) := by
  unfold wfDecl
  exact inferInstance

/-- `numpy.ndarray.squeeze()`: remove all axes of size 1 from a shape. -/
def npSqueeze (shape : List ℕ) : List ℕ := shape.filter (fun d => d ≠ 1)

/-- `scipy.interpolate.RegularGridInterpolator(input_dims, height)`, kept
abstract: the grid list passed for the non-degenerate axes, and the shape
of the (possibly squeezed) value array.  Evaluating the interpolator
requires exactly one coordinate per grid, i.e. `arity` coordinates. -/
structure RGI where
  grids : List (List ℚ)
  valuesShape : List ℕ
  deriving DecidableEq

/-- The number of coordinates an evaluation point must supply. -/
def RGI.arity (r : RGI) : ℕ := r.grids.length

/-- One iteration of the axis-selection loop of `get_alt_press` (gfspy.py
lines 245-250): an axis with more than one sample joins the interpolation
domain, otherwise the height array is squeezed. -/
def dimsStep (acc : List (List ℚ) × List ℕ) (ax : List ℚ) :
    List (List ℚ) × List ℕ :=
  if ax.length > 1 then (acc.1 ++ [ax], acc.2) else (acc.1, npSqueeze acc.2)

/-- The interpolator construction of `get_alt_press` (gfspy.py lines
237-252): level values are inverted as `1000 - v` (line 241), then the loop
runs over `[times, levs, lats, lons]` in that order. -/
def buildInterp (times levs lats lons : List ℚ) (shape : List ℕ) : RGI :=
  let levsInv := levs.map (fun v => 1000 - v)
  let p := [times, levsInv, lats, lons].foldl dimsStep ([], shape)
  ⟨p.1, p.2⟩

/-- `timedelta(<kw>=n)` for a single keyword argument: only the genuine
`timedelta` keywords are accepted; any other keyword (such as the `day`
of gfspy.py line 263) raises `TypeError`. -/
def timedeltaKw (kw : String) (n : ℤ) : Except PyErr ℤ :=
  if kw = "days" then .ok (n * usPerDay)
  else if kw = "hours" then .ok (n * usPerHour)
  else if kw = "minutes" then .ok (n * usPerMin)
  else if kw = "seconds" then .ok (n * usPerSec)
  else if kw = "microseconds" then .ok n
  else if kw = "weeks" then .ok (n * 7 * usPerDay)
  else .error .typeError

/-- What `get_attributes` decides before any network request: use the
cached record, or fetch metadata for a reference date. -/
inductive AttrStart where
  | useCache : AttrStart
  | fetch (date : ℤ) : AttrStart
  deriving DecidableEq

/-- The pre-fetch control flow of `get_attributes` (gfspy.py lines 258-265):
a cached key short-circuits; otherwise, when `utcnow().hour < 6` the
reference date is `utcnow() - timedelta(day=1)` — an invalid keyword, so
`TypeError` is raised before any request — and otherwise the fetch proceeds
at `utcnow()`. -/
def getAttributesStart (savedAtts : List String) (key : String) (now : ℤ) :
    Except PyErr AttrStart :=
  if key ∈ savedAtts then .ok .useCache
  else if hour now < 6 then
    match timedeltaKw "day" 1 with
    | .error e => .error e
    | .ok delta => .ok (.fetch (now - delta))
  else .ok (.fetch now)

/-- The configuration key `"{res}{step}"` after the timestep prefixing of
`Forcast.__init__` (gfspy.py lines 49-53). -/
def mkConfigKey (resolution timestep : String) : String :=
  resolution ++ (if timestep = "" then "" else "_" ++ timestep)

/-- `Forcast.__init__` (gfspy.py lines 49-54) up to its call into
`get_attributes`. -/
def forcastInit (resolution timestep : String) (savedAtts : List String) (now : ℤ) :
    Except PyErr AttrStart :=
  getAttributesStart savedAtts (mkConfigKey resolution timestep) now

/-! ### Arithmetic toolkit for the datetime model -/

theorem emod_mul_decomp (a m n : ℤ) (hm : 0 < m) (hn : 0 < n) :
    a % (m * n) = (a / m) % n * m + a % m := by
  have h1 : 0 ≤ a % m := Int.emod_nonneg a (by omega)
  have h2 : a % m < m := Int.emod_lt_of_pos a hm
  have h3 : 0 ≤ (a / m) % n := Int.emod_nonneg _ (by omega)
  have h4 : (a / m) % n < n := Int.emod_lt_of_pos _ hn
  have e1 : m * (a / m) + a % m = a := Int.ediv_add_emod a m
  have e2 : n * (a / m / n) + (a / m) % n = a / m := Int.ediv_add_emod (a / m) n
  have key : a = ((a / m) % n * m + a % m) + (m * n) * (a / m / n) := by
    linear_combination (-1 : ℤ) * e1 - m * e2
  have h5 : 0 ≤ (a / m) % n * m + a % m := by
    have := mul_nonneg h3 hm.le
    linarith
  have h6 : (a / m) % n * m + a % m < m * n := by nlinarith
  conv_lhs => rw [key]
  rw [Int.add_mul_emod_self_left]
  exact Int.emod_eq_of_lt h5 h6

theorem emod_min_decomp (t : ℤ) :
    t % usPerMin = (t / usPerSec) % 60 * usPerSec + t % usPerSec := by
  have h := emod_mul_decomp t usPerSec 60 (by norm_num [usPerSec]) (by norm_num)
  simp only [usPerSec, usPerMin] at h ⊢
  norm_num at h
  exact h

theorem emod_hour_decomp (t : ℤ) :
    t % usPerHour = (t / usPerMin) % 60 * usPerMin + t % usPerMin := by
  have h := emod_mul_decomp t usPerMin 60 (by norm_num [usPerMin]) (by norm_num)
  simp only [usPerMin, usPerHour] at h ⊢
  norm_num at h
  exact h

theorem floorHour_eq (t : ℤ) : floorHour t = t - t % usPerHour := by
  have h1 := emod_hour_decomp t
  have h2 := emod_min_decomp t
  simp only [floorHour, micro, second, minute]
  omega

theorem floorHour_hour_mul (t : ℤ) : floorHour t = usPerHour * (t / usPerHour) := by
  rw [floorHour_eq]
  have := Int.ediv_add_emod t usPerHour
  omega

theorem hour_round_mul (k : ℤ) : hour_round (usPerHour * k) = usPerHour * k := by
  unfold hour_round
  have hf : floorHour (usPerHour * k) = usPerHour * k := by
    rw [floorHour_eq]
    have : usPerHour * k % usPerHour = 0 := Int.mul_emod_right usPerHour k
    omega
  have hm : minute (usPerHour * k) = 0 := by
    unfold minute
    simp only [usPerHour, usPerMin]
    have hdiv : (3600000000 : ℤ) * k / 60000000 = 60 * k := by
      have hrw : (3600000000 : ℤ) * k = 60000000 * (60 * k) := by ring
      rw [hrw, Int.mul_ediv_cancel_left _ (by norm_num)]
    rw [hdiv]
    omega
  rw [hf, hm]
  norm_num

theorem hour_round_sub_week (t : ℤ) :
    hour_round (t - 7 * usPerDay) = hour_round t - 7 * usPerDay := by
  have hmin : minute (t - 7 * usPerDay) = minute t := by
    simp only [minute, usPerDay, usPerMin]
    omega
  have hsec : second (t - 7 * usPerDay) = second t := by
    simp only [second, usPerDay, usPerSec]
    omega
  have hmic : micro (t - 7 * usPerDay) = micro t := by
    simp only [micro, usPerDay, usPerSec]
    omega
  simp only [hour_round, floorHour, hmin, hsec, hmic]
  ring

theorem earliestAvailable_eq (now : ℤ) :
    earliestAvailable now = hour_round now - 7 * usPerDay :=
  hour_round_sub_week now

theorem latestAvailable_eq (now c s : ℤ) :
    latestAvailable now c s
      = floorHour now - hour now % 6 * usPerHour + c * s * usPerHour := by
  unfold latestAvailable
  generalize c * s = E
  have harg : now - ((hour now - 6 * (hour now / 6) - E) * usPerHour
      + minute now * usPerMin + second now * usPerSec + micro now)
      = usPerHour * (now / usPerHour - hour now % 6 + E) := by
    have hd1 := emod_hour_decomp now
    have hd2 := emod_min_decomp now
    simp only [micro, second, minute, hour, usPerSec, usPerMin, usPerHour] at hd1 hd2 ⊢
    omega
  rw [harg, hour_round_mul, floorHour_hour_mul]
  ring

theorem whileStep_stop {d q : ℤ} (h : ¬ d < q) : whileStep d q = q := by
  unfold whileStep
  exact dif_neg h

theorem whileStep_go {d q : ℤ} (h : d < q) :
    whileStep d q = whileStep d (q - 6 * usPerHour) := by
  conv_lhs => unfold whileStep
  exact dif_pos h

theorem pyRound_intCast (n : ℤ) : pyRound (n : ℚ) = n := by
  unfold pyRound
  rw [Int.floor_intCast]
  norm_num

/-- Claim C1 (amended).  `Forcast.get` proceeds to run selection exactly when
the parsed timestamp lies strictly between `earliest_available =
hour_round(now) - 7 days` and `latest_available`, and otherwise raises a
`ValueError` whose message reports `run_count * run_step_hours`; but
`latest_available` is `now` truncated to the hour (no half-hour round-up),
minus `(now.hour mod 6)` hours, **plus** `run_count * run_step_hours` hours —
the forward extent is added, not subtracted as the claim states. -/
theorem getForecastTime_window_check (now desired c s : ℤ) :
    ((∃ r, getForecastTime now desired c s = .ok r) ↔
      (earliestAvailable now < desired ∧ desired < latestAvailable now c s))
    ∧ (¬ (earliestAvailable now < desired ∧ desired < latestAvailable now c s) →
        getForecastTime now desired c s = .error (.rangeError (c * s)))
    ∧ earliestAvailable now = hour_round now - 7 * usPerDay
    ∧ latestAvailable now c s
        = floorHour now - hour now % 6 * usPerHour + c * s * usPerHour := by
  refine ⟨?_, ?_, earliestAvailable_eq now, latestAvailable_eq now c s⟩
  · by_cases h : earliestAvailable now < desired ∧ desired < latestAvailable now c s
    · simp only [getForecastTime, if_pos h]
      exact iff_of_true ⟨_, rfl⟩ h
    · simp only [getForecastTime, if_neg h]
      refine iff_of_false ?_ h
      rintro ⟨r, hr⟩
      cases hr
  · intro h
    simp only [getForecastTime, if_neg h]

/-- Claim C1 counterexample: with `now = 874800000000` (hour 3, minute 0),
`grads_size = 4` and step `6`, the request `918000000000` (12 hours after
`now`'s run base) is accepted by the code, yet it does not lie below the
spec's `latest_available = floor_to_hour(now) - (now.hour mod 6)h -
(run_count*run_step)h`, so the claimed window is wrong. -/
theorem C1_counterexample :
    (∃ r, getForecastTime 874800000000 918000000000 4 6 = .ok r)
    ∧ ¬ (918000000000 < specLatestAvailable 874800000000 4 6) := by
  constructor
  · have h : getForecastTime 874800000000 918000000000 4 6
        = .ok (whileStep 918000000000 (latestForcast 874800000000 4 6),
            timeIndex 918000000000
              (whileStep 918000000000 (latestForcast 874800000000 4 6)) 6) := by
      unfold getForecastTime
      rw [if_pos (by decide)]
    exact ⟨_, h⟩
  · decide

/-- Claim C1 witness: a request far in the past is rejected with the
`ValueError` reporting `4 * 6 = 24` forward hours, and the earliest bound
is `hour_round(now) - 7 days`. -/
theorem C1_witness :
    getForecastTime 874800000000 100 4 6 = .error (.rangeError 24)
    ∧ earliestAvailable 874800000000 = hour_round 874800000000 - 7 * usPerDay := by
  have h := getForecastTime_window_check 874800000000 100 4 6
  exact ⟨h.2.1 (by decide), h.2.2.1⟩

/-- Claim C2 (code bug).  With `now = 874800000000` (hour 3), `grads_size =
129` and step `3`, the request `972000000000` lies 30 hours after the
selected run `864000000000`; the code computes the index from the
`.seconds` component of the difference (21600 seconds, the whole day having
been discarded), yielding `2`, while the claimed index
`round((requested - selected_run)/run_step_hours)` is `10`. -/
theorem C2_seconds_bug :
    getForecastTime 874800000000 972000000000 129 3 = .ok (864000000000, 2)
    ∧ specTimeIndex 972000000000 864000000000 3 = 10 := by
  have hlf : latestForcast 874800000000 129 3 = 864000000000 := by decide
  have hq : whileStep 972000000000 864000000000 = 864000000000 :=
    whileStep_stop (by decide)
  have hti : timeIndex 972000000000 864000000000 3 = 2 := by
    unfold timeIndex
    have hsec : secondsAttr (972000000000 - 864000000000) = 21600 := by decide
    rw [hsec]
    have hdiv : ((21600 : ℤ) : ℚ) / ((3 * 60 * 60 : ℤ) : ℚ) = ((2 : ℤ) : ℚ) := by
      norm_num
    rw [hdiv, pyRound_intCast]
  constructor
  · unfold getForecastTime
    rw [if_pos (by decide), hlf, hq, hti]
  · unfold specTimeIndex
    have hdiv : (((972000000000 - 864000000000 : ℤ)) : ℚ)
        / (((3 : ℤ) : ℚ) * ((usPerHour : ℤ) : ℚ)) = ((10 : ℤ) : ℚ) := by
      norm_num [usPerHour]
    rw [hdiv, pyRound_intCast]

/-! ### Coordinate indexing (C6, C3, C7) -/

theorem firstMatch_eq_none {l : List ℚ} {v : ℚ} (h : ∀ x ∈ l, x ≠ v) :
    firstMatch l v = none := by
  induction l with
  | nil => rfl
  | cons x xs ih =>
    simp only [firstMatch]
    rw [if_neg (h x (by simp)), ih (fun y hy => h y (by simp [hy]))]
    rfl

theorem firstMatch_eq_some {l : List ℚ} {v : ℚ} {n : ℕ}
    (hn : l[n]? = some v) (hfirst : ∀ j < n, l[j]? ≠ some v) :
    firstMatch l v = some n := by
  induction l generalizing n with
  | nil => simp at hn
  | cons x xs ih =>
    cases n with
    | zero =>
      simp only [List.getElem?_cons_zero, Option.some.injEq] at hn
      simp only [firstMatch]
      rw [if_pos hn]
    | succ k =>
      have hx : x ≠ v := by
        have h0 := hfirst 0 (Nat.succ_pos k)
        simpa using h0
      simp only [List.getElem?_cons_succ] at hn
      simp only [firstMatch]
      rw [if_neg hx, ih hn (fun j hj => by
        have hj1 := hfirst (j + 1) (Nat.succ_lt_succ hj)
        simpa using hj1)]
      rfl

theorem lattice_getElem (m : AxisMeta) {n : ℕ} (hn : n < m.grads_size) :
    (lattice m)[n]? = some (m.resolution * (n : ℚ) + m.minimum) := by
  unfold lattice
  rw [List.getElem?_map, List.getElem?_range hn]
  rfl

/-- Claim C6.  For axis metadata with positive resolution and grid size:
a value lying exactly on the lattice `minimum + resolution*n` (with
`n < grads_size`) is mapped by `value_to_index` to the position of its
first (here unique) exact match, and reconstructing
`minimum + resolution*index` reproduces the value exactly; a value not on
the lattice fails with the `ValueError` of `list.index` — no
nearest-neighbour snapping. -/
theorem value_to_index_lattice (m : AxisMeta) (hres : 0 < m.resolution)
    (hsz : 0 < m.grads_size) (v : ℚ) :
    (∀ n < m.grads_size, v = m.minimum + m.resolution * (n : ℚ) →
      value_to_index m v = .ok n ∧ m.minimum + m.resolution * (n : ℚ) = v)
    ∧ ((∀ n < m.grads_size, v ≠ m.minimum + m.resolution * (n : ℚ)) →
      value_to_index m v = .error .notOnGrid) := by
  constructor
  · intro n hn hv
    refine ⟨?_, hv.symm⟩
    unfold value_to_index
    have hget : (lattice m)[n]? = some v := by
      rw [lattice_getElem m hn, hv]
      congr 1
      ring
    have hfirst : ∀ j < n, (lattice m)[j]? ≠ some v := by
      intro j hj
      rw [lattice_getElem m (lt_trans hj hn)]
      intro hcontra
      have heq : m.resolution * (j : ℚ) + m.minimum = v := Option.some.inj hcontra
      have hcast : (j : ℚ) < (n : ℚ) := by exact_mod_cast hj
      have hlt : m.resolution * (j : ℚ) < m.resolution * (n : ℚ) :=
        mul_lt_mul_of_pos_left hcast hres
      rw [hv] at heq
      linarith
    rw [firstMatch_eq_some hget hfirst]
  · intro hoff
    unfold value_to_index
    have hnone : firstMatch (lattice m) v = none := by
      apply firstMatch_eq_none
      intro x hx
      unfold lattice at hx
      simp only [List.mem_map, List.mem_range] at hx
      obtain ⟨k, hk, rfl⟩ := hx
      intro hcontra
      exact hoff k hk (by linarith)
    rw [hnone]

/-- Claim C6 witness: for the axis `minimum 10, maximum 14, resolution 2,
grid size 3`, the lattice value 14 = 10 + 2*2 indexes to 2, exactly. -/
theorem C6_witness : value_to_index ⟨10, 14, 2, 3⟩ 14 = .ok 2 :=
  ((value_to_index_lattice ⟨10, 14, 2, 3⟩ (by norm_num) (by norm_num) 14).1 2
    (by norm_num) (by push_cast; norm_num)).1

/-- Claim C3 (code bug).  On any bracketed range string `"[a:b]"` the
latitude/longitude branch of `Forcast.get` raises `TypeError`, because
`float()` is applied to the *list* returned by `re.findall` — the
documented range form can never be converted.  A non-integral numeric
string such as `"4.5"` fails `str.isnumeric()` and raises the format
`ValueError` rather than being accepted, and a non-string non-number also
raises the format `ValueError`. -/
theorem C3_range_TypeError :
    parseCoordExpr ⟨-90, 90, 1, 181⟩ "latitude" (.pystr "[10:20]") = .error .typeError
    ∧ parseCoordExpr ⟨-90, 90, 1, 181⟩ "latitude" (.pystr "4.5")
        = .error (.coordFormatError "latitude")
    ∧ parseCoordExpr ⟨-90, 90, 1, 181⟩ "latitude" .pyother
        = .error (.coordFormatError "latitude") := by
  refine ⟨by decide, by decide, rfl⟩

theorem pyInt_intCast (n : ℤ) : pyInt ((n : ℤ) : ℚ) = n := by
  unfold pyInt
  rw [Rat.num_intCast, Rat.den_intCast]
  norm_num

/-- Claim C7 (amended).  The upper level index of the height-field lookups
is `int((minimum - maximum)/resolution)`; under the claim's ascending
lattice invariant (`maximum = minimum + resolution*(grid_size-1)` with
`resolution > 0`) it equals `-(grid_size-1)`, not `grid_size-1`; it equals
`grid_size-1` exactly when the axis metadata descends
(`maximum = minimum - resolution*(grid_size-1)`), which is how the real
`lev` axis is listed. -/
theorem max_lev_eval (m : AxisMeta) (hres : 0 < m.resolution)
    (hsz : 1 ≤ m.grads_size) :
    (m.maximum = m.minimum - m.resolution * ((m.grads_size - 1 : ℕ) : ℚ) →
      max_lev m = ((m.grads_size - 1 : ℕ) : ℤ))
    ∧ (m.maximum = m.minimum + m.resolution * ((m.grads_size - 1 : ℕ) : ℚ) →
      max_lev m = -((m.grads_size - 1 : ℕ) : ℤ)) := by
  have hne : m.resolution ≠ 0 := ne_of_gt hres
  constructor
  · intro h
    unfold max_lev
    have harg : (m.minimum - m.maximum) / m.resolution
        = ((((m.grads_size - 1 : ℕ) : ℤ)) : ℚ) := by
      rw [h]
      have hsimp : m.minimum - (m.minimum - m.resolution * ((m.grads_size - 1 : ℕ) : ℚ))
          = m.resolution * ((m.grads_size - 1 : ℕ) : ℚ) := by ring
      rw [hsimp, mul_div_cancel_left₀ _ hne]
      push_cast
      ring
    rw [harg, pyInt_intCast]
  · intro h
    unfold max_lev
    have harg : (m.minimum - m.maximum) / m.resolution
        = (((-((m.grads_size - 1 : ℕ) : ℤ)) : ℤ) : ℚ) := by
      rw [h]
      have hsimp : m.minimum - (m.minimum + m.resolution * ((m.grads_size - 1 : ℕ) : ℚ))
          = m.resolution * (-((m.grads_size - 1 : ℕ) : ℚ)) := by ring
      rw [hsimp, mul_div_cancel_left₀ _ hne]
      push_cast
      ring
    rw [harg, pyInt_intCast]

/-- Claim C7 counterexample: the axis `minimum 0, maximum 10, resolution 1,
grid size 11` satisfies the claim's invariant
(`maximum = minimum + resolution*(grid_size-1)`, positive resolution,
monotone lattice), yet the upper index the code computes is `-10`, not
`grid_size - 1 = 10`. -/
theorem C7_counterexample :
    max_lev ⟨0, 10, 1, 11⟩ = -10
    ∧ (⟨0, 10, 1, 11⟩ : AxisMeta).maximum
        = (⟨0, 10, 1, 11⟩ : AxisMeta).minimum
          + (⟨0, 10, 1, 11⟩ : AxisMeta).resolution * (((11 - 1 : ℕ)) : ℚ)
    ∧ ((-10 : ℤ) ≠ ((11 - 1 : ℕ) : ℤ)) := by
  refine ⟨?_, by show (10 : ℚ) = 0 + 1 * ((10 : ℕ) : ℚ); push_cast; ring, by decide⟩
  have harg : ((⟨0, 10, 1, 11⟩ : AxisMeta).minimum
      - (⟨0, 10, 1, 11⟩ : AxisMeta).maximum) / (⟨0, 10, 1, 11⟩ : AxisMeta).resolution
      = ((-10 : ℤ) : ℚ) := by
    show ((0 : ℚ) - 10) / 1 = ((-10 : ℤ) : ℚ)
    norm_num
  unfold max_lev
  rw [harg, pyInt_intCast]

/-- Claim C7 witness: for the descending axis `minimum 1000, maximum 0,
resolution 25, grid size 41` the computed upper index is `40 = 41 - 1`. -/
theorem C7_witness : max_lev ⟨1000, 0, 25, 41⟩ = ((41 - 1 : ℕ) : ℤ) :=
  (max_lev_eval ⟨1000, 0, 25, 41⟩ (by norm_num) (by norm_num)).1
    (by show (0 : ℚ) = 1000 - 25 * ((41 - 1 : ℕ) : ℚ); push_cast; norm_num)

/-! ### Query assembly (C4, C5) -/

theorem str_empty_append (s : String) : "" ++ s = s := by
  obtain ⟨d⟩ := s
  rfl

theorem buildQueryAux_ok (catalog : List (String × Option Bool)) (qt lat lon lv : String)
    (vars : List String) :
    ∀ acc : String, (∀ v ∈ vars, ((alookup catalog v).bind id).isSome = true) →
    buildQueryAux catalog qt lat lon (some lv) vars acc
      = .ok (acc ++ concatAll (vars.map (queryTokenSpec catalog qt lv lat lon))) := by
  induction vars with
  | nil =>
    intro acc _
    simp [buildQueryAux, concatAll, String.append_empty]
  | cons v rest ih =>
    intro acc h
    have hv := h v (by simp)
    have hrest : ∀ x ∈ rest, ((alookup catalog x).bind id).isSome = true :=
      fun x hx => h x (by simp [hx])
    rcases hlook : alookup catalog v with _ | mo
    · rw [hlook] at hv
      simp [Option.bind] at hv
    · rcases mo with _ | b
      · rw [hlook] at hv
        simp [Option.bind] at hv
      · cases b with
        | true =>
          have hstep : buildQueryAux catalog qt lat lon (some lv) (v :: rest) acc
              = buildQueryAux catalog qt lat lon (some lv) rest
                  (acc ++ "," ++ v ++ qt ++ lv ++ lat ++ lon) := by
            simp [buildQueryAux, hlook, pyGetLevelDependent]
          rw [hstep, ih _ hrest]
          congr 1
          simp only [List.map_cons, concatAll, queryTokenSpec, hlook]
          simp [String.append_assoc]
        | false =>
          have hstep : buildQueryAux catalog qt lat lon (some lv) (v :: rest) acc
              = buildQueryAux catalog qt lat lon (some lv) rest
                  (acc ++ "," ++ v ++ qt ++ lat ++ lon) := by
            simp [buildQueryAux, hlook, pyGetLevelDependent]
          rw [hstep, ih _ hrest]
          congr 1
          simp only [List.map_cons, concatAll, queryTokenSpec, hlook]
          simp [String.append_assoc, String.append_empty]

/-- Claim C4 (amended).  When every requested variable is in the catalog
with a `level_dependent` attribute and a level range is assigned, the query
built by lines 171-189 consists of one token per variable in request order —
each token being the name, the time index brackets, the level range for
level-dependent variables only, then the latitude and longitude
expressions — but each token is *preceded* by a comma (the string starts
with a comma); the tokens are not comma-joined as the claim states. -/
theorem buildQuery_tokens (catalog : List (String × Option Bool)) (vars : List String)
    (qt lat lon lv : String)
    (h : ∀ v ∈ vars, ((alookup catalog v).bind id).isSome = true) :
    buildQuery catalog vars qt lat lon (some lv)
      = .ok (concatAll (vars.map (queryTokenSpec catalog qt lv lat lon))) := by
  unfold buildQuery
  rw [buildQueryAux_ok catalog qt lat lon lv vars "" h, str_empty_append]

/-- Claim C4 counterexample: with a single level-dependent variable the code
builds `",ugrdprs[2][0:40][30][40]"` — a leading comma — which differs from
the comma-join of the single token. -/
theorem C4_counterexample :
    buildQuery [("ugrdprs", some true)] ["ugrdprs"] "[2]" "[30]" "[40]" (some "[0:40]")
      = .ok ",ugrdprs[2][0:40][30][40]"
    ∧ ",ugrdprs[2][0:40][30][40]" ≠ specJoinedQuery ["ugrdprs[2][0:40][30][40]"] :=
  ⟨by decide, by decide⟩

/-- Claim C4 witness: two variables, one level-dependent and one not; the
level range appears exactly in the level-dependent token and the result is
the comma-preceded concatenation in request order. -/
theorem C4_witness :
    buildQuery [("ugrdprs", some true), ("tmpsfc", some false)] ["ugrdprs", "tmpsfc"]
        "[2]" "[30]" "[40]" (some "[0:40]")
      = .ok ",ugrdprs[2][0:40][30][40],tmpsfc[2][30][40]" := by
  rw [buildQuery_tokens _ _ _ _ _ _ (by decide)]
  decide

/-- Claim C5 (code bug).  A level-dependent variable requested while `alt`
is the empty list (so the local `lev` of line 158 was never assigned) makes
the condition of line 180 evaluate the unassigned `lev`: the call fails
with `UnboundLocalError`, not with the `ValueError` naming the variable
(lines 181-185), which is unreachable on this path. -/
theorem C5_unbound_lev :
    buildQuery [("ugrdprs", some true)] ["ugrdprs"] "[2]" "[30]" "[40]" none
      = .error (.nameError "lev")
    ∧ PyErr.nameError "lev" ≠ PyErr.levelRequired "ugrdprs" :=
  ⟨by decide, by decide⟩

/-! ### Level-dependence marking in `get_attributes` (C8) -/

theorem alookup_varsSet_self (vars : List (String × Option Bool)) (n : String) (b : Bool)
    (h : (alookup vars n).isSome = true) :
    alookup (varsSet vars n b) n = some (some b) := by
  induction vars with
  | nil => simp [alookup] at h
  | cons p rest ih =>
    by_cases hp : p.1 = n
    · simp [varsSet, alookup, hp]
    · simp only [varsSet, List.map_cons, if_neg hp]
      simp only [alookup, if_neg hp]
      apply ih
      simpa [alookup, if_neg hp] using h

theorem alookup_varsSet_ne (vars : List (String × Option Bool)) (n k : String) (b : Bool)
    (h : k ≠ n) : alookup (varsSet vars n b) k = alookup vars k := by
  induction vars with
  | nil => rfl
  | cons p rest ih =>
    by_cases hp : p.1 = n
    · have hpk : ¬ p.1 = k := by
        rw [hp]
        exact fun hh => h hh.symm
      simp only [varsSet, List.map_cons, if_pos hp, alookup, if_neg hpk]
      exact ih
    · simp only [varsSet, List.map_cons, if_neg hp, alookup]
      by_cases hpk : p.1 = k
      · simp [hpk]
      · simp only [if_neg hpk]
        exact ih

theorem alookup_varsSet_isSome (vars : List (String × Option Bool)) (n k : String)
    (b : Bool) :
    (alookup (varsSet vars n b) k).isSome = (alookup vars k).isSome := by
  induction vars with
  | nil => rfl
  | cons p rest ih =>
    simp only [varsSet, List.map_cons]
    by_cases hp : p.1 = n
    · rw [if_pos hp]
      by_cases hpk : p.1 = k
      · simp only [alookup, if_pos hpk]
        rfl
      · simp only [alookup, if_neg hpk]
        exact ih
    · rw [if_neg hp]
      by_cases hpk : p.1 = k
      · simp only [alookup, if_pos hpk]
      · simp only [alookup, if_neg hpk]
        exact ih

theorem levScanAux_ok (L : List (List Char)) (acc : Bool)
    (h : ∀ seg ∈ L, pyWords seg ≠ []) :
    levScanAux acc L
      = .ok (acc || L.any (fun seg => (pyWords seg).headD [] == levWord)) := by
  induction L generalizing acc with
  | nil => simp [levScanAux]
  | cons seg rest ih =>
    rcases hw : pyWords seg with _ | ⟨w, ws⟩
    · exact absurd hw (h seg (by simp))
    · simp only [levScanAux, hw]
      rw [ih (acc || (w == levWord)) (fun s hs => h s (by simp [hs]))]
      simp [hw, Bool.or_assoc]

theorem processDecl_wf (vars : List (String × Option Bool)) (d : String)
    (h : wfDecl d) :
    processDecl vars d
      = .ok (if (alookup vars (parsedName d)).isSome then
          varsSet vars (parsedName d) (declHasLev d) else vars) := by
  obtain ⟨h1, h2, h3⟩ := h
  rcases hsegs : declSegs d with _ | ⟨s0, rest⟩
  · exact absurd hsegs h1
  rw [hsegs] at h2 h3
  simp only [List.headD_cons] at h2
  rcases hwords : pyWords s0 with _ | ⟨w0, ws⟩
  · rw [hwords] at h2
    simp at h2
  rcases ws with _ | ⟨w1, ws'⟩
  · rw [hwords] at h2
    simp at h2
  have hpn : parsedName d = String.mk w1 := by
    unfold parsedName
    rw [hsegs]
    simp [hwords]
  have hhl : declHasLev d
      = (s0 :: rest).any (fun seg => (pyWords seg).headD [] == levWord) := by
    unfold declHasLev
    rw [hsegs]
  have hscan := levScanAux_ok (s0 :: rest) false h3
  unfold processDecl
  rw [hsegs]
  simp only [hwords, List.getElem?_cons_succ, List.getElem?_cons_zero]
  rw [hscan, hpn, hhl]
  by_cases hsome : (alookup vars (String.mk w1)).isSome = true
  · rw [if_pos hsome, if_pos hsome]
    simp
  · rw [if_neg hsome, if_neg hsome]

/-- Claim C8 (amended).  After the array-declaration pass (with well-formed,
distinctly named declarations): every variable whose name matches a declared
array has `level_dependent = some true` iff that array's dimension list
includes a `lev` axis (and `some false` otherwise); but a variable with *no*
matching declaration keeps no `level_dependent` attribute at all — its entry
is unchanged, and reading the attribute raises `KeyError` rather than
yielding `false`. -/
theorem processArrays_level_dependence (vars₀ : List (String × Option Bool))
    (decls : List String) (hwf : ∀ d ∈ decls, wfDecl d)
    (hnd : (decls.map parsedName).Nodup) :
    ∃ vars', processArrays vars₀ decls = .ok vars' ∧
      (∀ d ∈ decls, (alookup vars₀ (parsedName d)).isSome = true →
        alookup vars' (parsedName d) = some (some (declHasLev d)))
      ∧ ∀ name : String, (∀ d ∈ decls, parsedName d ≠ name) →
        alookup vars' name = alookup vars₀ name := by
  induction decls generalizing vars₀ with
  | nil =>
    exact ⟨vars₀, rfl, by simp, fun _ _ => rfl⟩
  | cons d ds ih =>
    have hwfd := hwf d (by simp)
    have hstep := processDecl_wf vars₀ d hwfd
    simp only [List.map_cons, List.nodup_cons] at hnd
    obtain ⟨hdni, hnd'⟩ := hnd
    have hdnotin : ∀ x ∈ ds, parsedName x ≠ parsedName d := by
      intro x hx heq
      exact hdni (List.mem_map.mpr ⟨x, hx, heq⟩)
    set vars₁ := if (alookup vars₀ (parsedName d)).isSome = true then
        varsSet vars₀ (parsedName d) (declHasLev d) else vars₀ with hv₁
    obtain ⟨vars', hrun, hmatch, hkeep⟩ :=
      ih vars₁ (fun x hx => hwf x (by simp [hx])) hnd'
    refine ⟨vars', ?_, ?_, ?_⟩
    · simp only [processArrays, hstep]
      exact hrun
    · intro x hx hsome
      rcases List.mem_cons.mp hx with rfl | hxds
      · rw [hkeep (parsedName x) hdnotin, hv₁, if_pos hsome]
        exact alookup_varsSet_self vars₀ (parsedName x) (declHasLev x) hsome
      · apply hmatch x hxds
        rw [hv₁]
        by_cases hc : (alookup vars₀ (parsedName d)).isSome = true
        · rw [if_pos hc, alookup_varsSet_isSome]
          exact hsome
        · rw [if_neg hc]
          exact hsome
    · intro name hname
      rw [hkeep name (fun x hx => hname x (by simp [hx])), hv₁]
      by_cases hc : (alookup vars₀ (parsedName d)).isSome = true
      · rw [if_pos hc, alookup_varsSet_ne]
        exact (hname d (by simp)).symm
      · rw [if_neg hc]

/-- Claim C8 counterexample: with variables `absvprs` and `tmpsfc` and a
single declaration matching only `absvprs`, the unmatched variable `tmpsfc`
ends with *no* `level_dependent` attribute (`none`), not `false`; reading
the attribute raises `KeyError`. -/
theorem C8_counterexample :
    processArrays [("absvprs", none), ("tmpsfc", none)]
        ["Float32 absvprs[time = 2][lev = 3][lat = 4][lon = 5];"]
      = .ok [("absvprs", some true), ("tmpsfc", none)]
    ∧ alookup [("absvprs", some true), ("tmpsfc", (none : Option Bool))] "tmpsfc"
        = some none
    ∧ pyGetLevelDependent none = .error .keyError
    ∧ (some (none : Option Bool) ≠ some (some false)) :=
  ⟨by decide, by decide, rfl, by decide⟩

/-- Claim C8 witness: `absvprs` (declared with a `lev` dimension) is marked
level-dependent, `tmpsfc` (declared without one) is marked not
level-dependent, and an undeclared variable keeps its entry unchanged. -/
theorem C8_witness :
    ∃ vars', processArrays [("absvprs", none), ("tmpsfc", none), ("nodecl", none)]
        ["Float32 absvprs[time = 2][lev = 3][lat = 4][lon = 5];",
         "Float32 tmpsfc[time = 2][lat = 4][lon = 5];"]
      = .ok vars'
    ∧ (∀ d ∈ ["Float32 absvprs[time = 2][lev = 3][lat = 4][lon = 5];",
         "Float32 tmpsfc[time = 2][lat = 4][lon = 5];"],
        (alookup [("absvprs", (none : Option Bool)), ("tmpsfc", none), ("nodecl", none)]
            (parsedName d)).isSome = true →
        alookup vars' (parsedName d) = some (some (declHasLev d)))
    ∧ ∀ name : String,
        (∀ d ∈ ["Float32 absvprs[time = 2][lev = 3][lat = 4][lon = 5];",
           "Float32 tmpsfc[time = 2][lat = 4][lon = 5];"], parsedName d ≠ name) →
        alookup vars' name
          = alookup [("absvprs", (none : Option Bool)), ("tmpsfc", none), ("nodecl", none)]
              name :=
  processArrays_level_dependence
    [("absvprs", none), ("tmpsfc", none), ("nodecl", none)]
    ["Float32 absvprs[time = 2][lev = 3][lat = 4][lon = 5];",
     "Float32 tmpsfc[time = 2][lat = 4][lon = 5];"]
    (by decide) (by decide)

/-! ### Interpolator construction (C9) and metadata pre-fetch (C10) -/

theorem npSqueeze_idem (s : List ℕ) : npSqueeze (npSqueeze s) = npSqueeze s := by
  unfold npSqueeze
  rw [List.filter_filter]
  simp

theorem foldl_dimsStep_fst (L : List (List ℚ)) :
    ∀ (acc : List (List ℚ)) (s : List ℕ),
      (L.foldl dimsStep (acc, s)).1 = acc ++ L.filter (fun ax => 1 < ax.length) := by
  induction L with
  | nil =>
    intro acc s
    simp
  | cons ax rest ih =>
    intro acc s
    simp only [List.foldl_cons, dimsStep]
    by_cases h : 1 < ax.length
    · rw [if_pos h, ih]
      simp [List.filter_cons, h]
    · rw [if_neg h, ih]
      simp [List.filter_cons, h]

theorem foldl_dimsStep_snd_nodeg (L : List (List ℚ)) :
    ∀ (acc : List (List ℚ)) (s : List ℕ), (∀ ax ∈ L, 1 < ax.length) →
      (L.foldl dimsStep (acc, s)).2 = s := by
  induction L with
  | nil =>
    intro acc s _
    rfl
  | cons ax rest ih =>
    intro acc s h
    simp only [List.foldl_cons, dimsStep]
    rw [if_pos (h ax (by simp))]
    exact ih _ _ (fun x hx => h x (by simp [hx]))

theorem foldl_dimsStep_snd_fixed (L : List (List ℚ)) :
    ∀ (acc : List (List ℚ)) (s : List ℕ), npSqueeze s = s →
      (L.foldl dimsStep (acc, s)).2 = s := by
  induction L with
  | nil =>
    intro acc s _
    rfl
  | cons ax rest ih =>
    intro acc s hfix
    simp only [List.foldl_cons, dimsStep]
    by_cases h : 1 < ax.length
    · rw [if_pos h]
      exact ih _ _ hfix
    · rw [if_neg h, hfix]
      exact ih _ _ hfix

theorem foldl_dimsStep_snd_deg (L : List (List ℚ)) :
    ∀ (acc : List (List ℚ)) (s : List ℕ), (∃ ax ∈ L, ¬ 1 < ax.length) →
      (L.foldl dimsStep (acc, s)).2 = npSqueeze s := by
  induction L with
  | nil =>
    intro acc s h
    obtain ⟨ax, hax, _⟩ := h
    simp at hax
  | cons ax rest ih =>
    intro acc s h
    simp only [List.foldl_cons, dimsStep]
    by_cases hd : 1 < ax.length
    · rw [if_pos hd]
      obtain ⟨ax', hax', hd'⟩ := h
      rcases List.mem_cons.mp hax' with rfl | hmem
      · exact absurd hd hd'
      · exact ih _ _ ⟨ax', hmem, hd'⟩
    · rw [if_neg hd]
      exact foldl_dimsStep_snd_fixed rest _ _ (npSqueeze_idem s)

/-- Claim C9.  For every decoded height grid, the interpolator of
`get_alt_press` is constructed over exactly those axes having more than one
sample, taken in the fixed order (time, level, lat, lon) — level values
inverted as `1000 - v` — with the height array squeezed of all singleton
dimensions (the decoded height array's shape being the four axis lengths,
in that order); in particular, when the time and longitude axes each have a
single sample, the active domain is exactly (level, lat) and an evaluation
point must supply exactly two coordinates. -/
theorem buildInterp_active_axes (times levs lats lons : List ℚ) (shape : List ℕ)
    (hshape : shape = [times.length, levs.length, lats.length, lons.length]) :
    (buildInterp times levs lats lons shape).grids
        = [times, levs.map (fun v => 1000 - v), lats, lons].filter
            (fun ax => 1 < ax.length)
    ∧ (buildInterp times levs lats lons shape).arity
        = ([times, levs.map (fun v => 1000 - v), lats, lons].filter
            (fun ax => 1 < ax.length)).length
    ∧ (buildInterp times levs lats lons shape).valuesShape = npSqueeze shape
    ∧ (times.length = 1 → 1 < levs.length → 1 < lats.length → lons.length = 1 →
        (buildInterp times levs lats lons shape).grids
            = [levs.map (fun v => 1000 - v), lats]
        ∧ (buildInterp times levs lats lons shape).arity = 2) := by
  have hfst : (buildInterp times levs lats lons shape).grids
      = [times, levs.map (fun v => 1000 - v), lats, lons].filter
          (fun ax => 1 < ax.length) := by
    show ([times, levs.map (fun v : ℚ => 1000 - v), lats, lons].foldl
        dimsStep ([], shape)).1 = _
    rw [foldl_dimsStep_fst, List.nil_append]
  have hsnd : (buildInterp times levs lats lons shape).valuesShape
      = npSqueeze shape := by
    show ([times, levs.map (fun v : ℚ => 1000 - v), lats, lons].foldl
        dimsStep ([], shape)).2 = _
    by_cases hdeg : ∃ ax ∈ [times, levs.map (fun v : ℚ => 1000 - v), lats, lons],
        ¬ 1 < ax.length
    · rw [foldl_dimsStep_snd_deg _ _ _ hdeg]
    · push_neg at hdeg
      rw [foldl_dimsStep_snd_nodeg _ _ _ hdeg]
      have h1 := hdeg times (by simp)
      have h2 := hdeg (levs.map (fun v : ℚ => 1000 - v)) (by simp)
      have h3 := hdeg lats (by simp)
      have h4 := hdeg lons (by simp)
      rw [List.length_map] at h2
      rw [hshape]
      unfold npSqueeze
      rw [List.filter_cons_of_pos, List.filter_cons_of_pos, List.filter_cons_of_pos,
        List.filter_cons_of_pos, List.filter_nil]
      all_goals simp only [decide_eq_true_eq]
      all_goals omega
  refine ⟨hfst, ?_, hsnd, ?_⟩
  · unfold RGI.arity
    rw [hfst]
  · intro h1 h2 h3 h4
    have ht' : ¬ 1 < times.length := by omega
    have hl' : 1 < (levs.map (fun v : ℚ => 1000 - v)).length := by
      rw [List.length_map]
      omega
    have hlo' : ¬ 1 < lons.length := by omega
    have hg : (buildInterp times levs lats lons shape).grids
        = [levs.map (fun v => 1000 - v), lats] := by
      rw [hfst]
      simp [List.filter_cons, ht', hl', h2, h3, hlo']
    refine ⟨hg, ?_⟩
    unfold RGI.arity
    rw [hg]
    rfl

/-- Claim C9 witness: height data with one time sample, two (inverted)
levels, three latitudes and one longitude yields an interpolator over
exactly the level and latitude grids, of arity 2, with the height shape
squeezed of both singleton dimensions. -/
theorem C9_witness :
    (buildInterp [0] [1000, 500] [10, 20, 30] [5] [1, 2, 3, 1]).grids
        = [[0, 500], [10, 20, 30]]
    ∧ (buildInterp [0] [1000, 500] [10, 20, 30] [5] [1, 2, 3, 1]).arity = 2
    ∧ (buildInterp [0] [1000, 500] [10, 20, 30] [5] [1, 2, 3, 1]).valuesShape
        = [2, 3] := by
  have h := buildInterp_active_axes [0] [1000, 500] [10, 20, 30] [5] [1, 2, 3, 1] rfl
  have hi := h.2.2.2 rfl (by norm_num) (by norm_num) rfl
  refine ⟨?_, hi.2, ?_⟩
  · rw [hi.1]
    norm_num [List.map_cons, List.map_nil]
  · rw [h.2.2.1]
    rfl

/-- Claim C10.  For a configuration key not in the cached index: when the
UTC hour is below 6, `get_attributes` evaluates `timedelta(day=1)` — an
invalid keyword argument — and raises `TypeError` before any network
request (no fetch instruction is ever produced), so constructing a
`Forcast` for an uncached model between 00:00 and 05:59 UTC always fails;
when the hour is 6 or greater the branch is not taken and the metadata
fetch proceeds at `utcnow()`. -/
theorem getAttributes_precheck (savedAtts : List String) (res ts : String) (now : ℤ)
    (h : mkConfigKey res ts ∉ savedAtts) :
    (hour now < 6 →
      forcastInit res ts savedAtts now = .error .typeError
      ∧ ∀ dt : ℤ, forcastInit res ts savedAtts now ≠ .ok (.fetch dt))
    ∧ (6 ≤ hour now →
      forcastInit res ts savedAtts now = .ok (.fetch now)) := by
  constructor
  · intro hh
    have he : forcastInit res ts savedAtts now = .error .typeError := by
      unfold forcastInit getAttributesStart
      rw [if_neg h, if_pos hh]
      rfl
    refine ⟨he, fun dt hdt => ?_⟩
    rw [he] at hdt
    cases hdt
  · intro hh
    unfold forcastInit getAttributesStart
    rw [if_neg h, if_neg (by omega : ¬ hour now < 6)]

/-- Claim C10 witness: at 03:00 UTC, an uncached configuration key
`"0p25_1hr"` makes the constructor fail with `TypeError` before any
request. -/
theorem C10_witness :
    forcastInit "0p25" "1hr" ["Na"] 10800000000 = .error .typeError :=
  ((getAttributes_precheck ["Na"] "0p25" "1hr" 10800000000 (by decide)).1
    (by decide)).1

end Gfspy
